import Mathlib

/-!
Shallow embedding of the feed-following and dispatch subsystem of the
Scarecrow Discord bot (`cogs/twitter.py`, class `Twitter`).

The registry `self.conf.follows` is a JSON-backed dict mapping a Twitter
user id to a record holding the account's `screen_name` and a dict
`channels` from Discord channel id to a record with a `last_tweet_id`
cursor.  Python dicts are modelled as association lists in insertion
order; dict assignment keeps the position of an existing key and appends
a fresh key, matching CPython semantics.  `conf.save()` is persistence
of the in-memory registry and is modelled as the identity.

Fallible paths are modelled explicitly: an uncaught Python exception
(`KeyError`, `ValueError`, a failed Discord send) surfaces as an
`aborted` flag or a dedicated error outcome, never as a silent value.
-/

namespace Scarecrow

/-- One value of the `channels` dict: a destination's delivery cursor
(`last_tweet_id` in `conf/twitter.json`). -/
structure ChannelConf where
  last_tweet_id : Nat
  deriving Repr, DecidableEq

/-- One value of the `follows` dict: `config.ConfigElement(screen_name=..., channels=...)`. -/
structure FollowConf where
  screen_name : String
  channels : List (Nat × ChannelConf)
  deriving Repr, DecidableEq

/-- The follow registry `self.conf.follows`: Twitter user id → `FollowConf`. -/
abbrev Registry := List (Nat × FollowConf)

/-- Python dict lookup `d[k]` (as an `Option`, `none` meaning `KeyError`). -/
def dlookup (k : Nat) : List (Nat × α) → Option α
  | [] => none
  | (k', v) :: d => if k' = k then some v else dlookup k d

/-- Python dict assignment `d[k] = v`: replaces in place, appends a fresh key. -/
def dinsert (k : Nat) (v : α) : List (Nat × α) → List (Nat × α)
  | [] => [(k, v)]
  | (k', v') :: d => if k' = k then (k, v) :: d else (k', v') :: dinsert k v d

/-- Python dict deletion `del d[k]` / `d.pop(k)`. -/
def ddel (k : Nat) : List (Nat × α) → List (Nat × α)
  | [] => []
  | (k', v') :: d => if k' = k then ddel k d else (k', v') :: ddel k d

/-- A tweet as far as the subsystem looks at it: `tweet['user']['id']`
and `tweet['id']` (the tweet id is the monotone cursor key). -/
structure Tweet where
  user_id : Nat
  id : Nat
  deriving Repr, DecidableEq

/-- The loop body of `Twitter.dispatch_tweet`: iterate over
`conf.channels` in insertion order, `await channel.send(tweet_url)` and
on success write `last_tweet_id = tweet['id']` and save.  `sendOk ch tid`
says whether the Discord send of tweet `tid` to channel `ch` succeeds;
the Python has no `try`/`except` around the send, so a raised exception
aborts the loop: later channels are untouched and the error propagates. -/
def deliverLoop (sendOk : Nat → Nat → Bool) (tid : Nat) :
    List (Nat × ChannelConf) → List (Nat × ChannelConf) × List Nat × Bool
  | [] => ([], [], false)
  | (ch, cc) :: rest =>
    if sendOk ch tid then
      let r := deliverLoop sendOk tid rest
      ((ch, ⟨tid⟩) :: r.1, ch :: r.2.1, r.2.2)
    else
      ((ch, cc) :: rest, [], true)

/-- Result of `dispatch_tweet`: the registry afterwards, the channel ids
that received the tweet (in iteration order), and whether an exception
escaped the call. -/
structure DispatchResult where
  reg : Registry
  delivered : List Nat
  aborted : Bool
  deriving Repr, DecidableEq

/-- `Twitter.dispatch_tweet`: look the tweet's author up in
`self.conf.follows`; a `KeyError` is swallowed (`return`) because peony
also emits retweets of followed users.  Otherwise run the delivery loop. -/
def dispatch_tweet (sendOk : Nat → Nat → Bool) (r : Registry) (t : Tweet) : DispatchResult :=
  match dlookup t.user_id r with
  | none => ⟨r, [], false⟩
  | some conf =>
    let d := deliverLoop sendOk t.id conf.channels
    ⟨dinsert t.user_id { conf with channels := d.1 } r, d.2.1, d.2.2⟩

/-- `min(c.last_tweet_id for c in conf.channels.values())`; `none` models
the `ValueError` Python's `min` raises on an empty sequence. -/
def minCursor (chs : List (Nat × ChannelConf)) : Option Nat :=
  match chs.map (fun p => p.2.last_tweet_id) with
  | [] => none
  | x :: xs => some (xs.foldl min x)

/-- `max(c.last_tweet_id for c in conf.channels.values())`; `none` models
the `ValueError` on an empty sequence. -/
def maxCursor (chs : List (Nat × ChannelConf)) : Option Nat :=
  match chs.map (fun p => p.2.last_tweet_id) with
  | [] => none
  | x :: xs => some (xs.foldl max x)

/-- The upstream timeline fetch with `since_id`: the API returns the
user's tweets newest first, restricted to ids strictly greater than
`since_id`.  `up uid` is the user's timeline, newest first. -/
def fetchSince (up : Nat → List Nat) (uid since : Nat) : List Nat :=
  (up uid).filter (fun i => since < i)

/-- `Twitter.get_timeline(user_id=uid)` (the branch used by
`get_timelines`/`update_feeds`): reads `self.conf.follows[user_id]`
(`KeyError` if absent), computes `since_id` as the minimum cursor
(`ValueError` if the source has no channels), and fetches with
`since_id` when it is positive, else with `count=3` (the default
`limit`).  `Except.error` models the uncaught exception. -/
def get_timeline_user (up : Nat → List Nat) (r : Registry) (uid : Nat) :
    Except Unit (List Nat) :=
  match dlookup uid r with
  | none => .error ()
  | some conf =>
    match minCursor conf.channels with
    | none => .error ()
    | some since =>
      if 0 < since then .ok (fetchSince up uid since)
      else .ok ((up uid).take 3)

/-- Result of a reconciliation run (`update_feeds`): the registry
afterwards, the delivery log as `(channel id, tweet id)` pairs in the
order the sends happened, and whether an exception escaped. -/
structure FeedResult where
  reg : Registry
  log : List (Nat × Nat)
  aborted : Bool
  deriving Repr, DecidableEq

/-- The inner loop of `update_feeds` for one source: the fetched
timeline is `reversed` (oldest first) and each tweet goes through
`dispatch_tweet`; a raised send error aborts the whole run. -/
def dispatch_list (sendOk : Nat → Nat → Bool) (uid : Nat) :
    List Nat → Registry → FeedResult
  | [], r => ⟨r, [], false⟩
  | tid :: rest, r =>
    let d := dispatch_tweet sendOk r ⟨uid, tid⟩
    let entry := d.delivered.map (fun ch => (ch, tid))
    if d.aborted then ⟨d.reg, entry, true⟩
    else
      let f := dispatch_list sendOk uid rest d.reg
      ⟨f.reg, entry ++ f.log, f.aborted⟩

/-- `Twitter.update_feeds` over the snapshot of followed user ids:
for each source in registry order, fetch its timeline since the minimum
cursor and replay it oldest-first through the dispatcher.  Any uncaught
exception (`ValueError` from `min`, a failed send) aborts the run. -/
def update_feeds_go (up : Nat → List Nat) (sendOk : Nat → Nat → Bool) :
    List Nat → Registry → FeedResult
  | [], r => ⟨r, [], false⟩
  | uid :: rest, r =>
    match get_timeline_user up r uid with
    | .error _ => ⟨r, [], true⟩
    | .ok timeline =>
      let f := dispatch_list sendOk uid timeline.reverse r
      if f.aborted then f
      else
        let g := update_feeds_go up sendOk rest f.reg
        ⟨g.reg, f.log ++ g.log, g.aborted⟩

/-- `Twitter.update_feeds`: iterates `get_timelines`, which walks
`self.conf.follows.items()` in insertion order. -/
def update_feeds (up : Nat → List Nat) (sendOk : Nat → Nat → Bool) (r : Registry) :
    FeedResult :=
  update_feeds_go up sendOk (r.map (fun p => p.1)) r

/-- A Python value passed to `remove_channels_from_conf(*channels)`.
The dict keys of `conf.channels` are `int`s; `intV` is such an id.
`Twitter.on_guild_channel_delete` passes the `discord` channel object
itself, and `Twitter.on_guild_remove` passes a generator-expression
object (its call site has no `*`-unpacking); Python `==` between either
object and an `int` key is always `False`, which the distinct
constructors keep apart. -/
inductive PyVal where
  | intV : Nat → PyVal
  | channelV : Nat → PyVal
  | genV : PyVal
  deriving Repr, DecidableEq

/-- Result of `remove_channels_from_conf`: registry afterwards and the
returned `(removed, unfollowed)` counters. -/
structure RemoveResult where
  reg : Registry
  removed : Nat
  unfollowed : Nat
  deriving Repr, DecidableEq

/-- `Twitter.remove_channels_from_conf`: for every follow entry, pop the
channels whose key lies in the given set (`channels & set(conf.channels)`,
counting each pop in `removed`), then delete the entry if its channel
dict became empty (counting in `unfollowed`).  Membership of a dict key
`k` in the argument set holds exactly when the set contains the int `k`. -/
def remove_channels_from_conf (chs : List PyVal) : Registry → RemoveResult
  | [] => ⟨[], 0, 0⟩
  | (uid, conf) :: rest =>
    let keep := conf.channels.filter (fun p => !(chs.contains (PyVal.intV p.1)))
    let rm := conf.channels.length - keep.length
    let res := remove_channels_from_conf chs rest
    if keep.length = 0 then ⟨res.reg, rm + res.removed, res.unfollowed + 1⟩
    else ⟨(uid, { conf with channels := keep }) :: res.reg, rm + res.removed, res.unfollowed⟩

/-- `Twitter.on_guild_channel_delete`: calls
`remove_channels_from_conf(channel)` with the channel *object*. -/
def on_guild_channel_delete (channelId : Nat) (r : Registry) : RemoveResult :=
  remove_channels_from_conf [PyVal.channelV channelId] r

/-- `Twitter.on_guild_remove`: calls
`remove_channels_from_conf(c.id for c in guild.text_channels)`.  The
generator expression is passed *unexpanded* as the single `*channels`
argument (there is no `*` at the call site), so the set built inside the
routine holds one generator object, never the ids; the guild's channel
ids (`channelIds`) are never consumed and cannot influence the result. -/
def on_guild_remove (channelIds : List Nat) (r : Registry) : RemoveResult :=
  remove_channels_from_conf [PyVal.genV] r

/-- Outcome of the upstream `users/show` call in `Twitter.follow`:
the user id, the `protected` flag, and the optional `status` field
(the id of the latest tweet; Twitter omits the field entirely for an
account that has never tweeted). -/
inductive UserLookup where
  | notFound : UserLookup
  | found : Nat → Bool → Option Nat → UserLookup
  deriving Repr, DecidableEq

/-- Outcome of `Twitter.follow`.  `ok n` is the success path responding
with the url of tweet `n`; the `err…` constructors are the uncaught
Python exceptions (`KeyError('status')` from `user["status"]["id"]`,
`ValueError` from `max()` on an empty sequence), as opposed to the
`TwitterError` domain errors. -/
inductive FollowOutcome where
  | ok : Nat → FollowOutcome
  | alreadyFollowing : FollowOutcome
  | userNotFound : FollowOutcome
  | userProtected : FollowOutcome
  | errNoStatus : FollowOutcome
  | errEmptyMax : FollowOutcome
  deriving Repr, DecidableEq

/-- Modelled from the spec: `config.get(self.conf.follows,
screen_name=screen_name)` comes from `utils/config.py`, which is not
part of the sources at hand; per the spec the handle is a
case-insensitive lookup key (callers lowercase it before the call and
`screen_name` is stored lowercased), so the lookup is the first entry
whose `screen_name` equals the given one, or `none`. -/
def findByScreenName (r : Registry) (sn : String) : Option (Nat × FollowConf) :=
  r.find? (fun p => p.2.screen_name == sn)

/-- `Twitter.follow` (registry effect of the command body, after the
handle is lowercased).  On a known screen name with the invoking channel
already present, raise `AlreadyFollowing`; on a known screen name from a
new channel, seed the cursor with the max of the existing cursors; on an
unknown screen name, consult upstream (`lk`), reject a missing or
protected user, and otherwise *first* store an entry with an empty
channel dict, then read `user["status"]["id"]` — which raises `KeyError`
for a user that has never tweeted, leaving the empty entry behind —
and finally record the invoking channel with the status id as cursor. -/
def follow (lk : UserLookup) (r : Registry) (sn : String) (chan : Nat) :
    Registry × FollowOutcome :=
  match findByScreenName r sn with
  | some (uid, conf) =>
    if (dlookup chan conf.channels).isSome then (r, .alreadyFollowing)
    else
      match maxCursor conf.channels with
      | none => (r, .errEmptyMax)
      | some m =>
        (dinsert uid { conf with channels := dinsert chan ⟨m⟩ conf.channels } r, .ok m)
  | none =>
    match lk with
    | .notFound => (r, .userNotFound)
    | .found uid isProt status =>
      if isProt then (r, .userProtected)
      else
        let r1 := dinsert uid ⟨sn, []⟩ r
        match status with
        | none => (r1, .errNoStatus)
        | some sid => (dinsert uid ⟨sn, [(chan, ⟨sid⟩)]⟩ r1, .ok sid)

/-- Outcome of `Twitter.unfollow`. -/
inductive UnfollowOutcome where
  | ok : UnfollowOutcome
  | notFollowing : UnfollowOutcome
  deriving Repr, DecidableEq

/-- `Twitter.unfollow`: find the entry by screen name, delete the
invoking channel from it (`NotFollowing` if either is absent), and drop
the whole entry when its channel dict becomes empty. -/
def unfollow (r : Registry) (sn : String) (chan : Nat) : Registry × UnfollowOutcome :=
  match findByScreenName r sn with
  | none => (r, .notFollowing)
  | some (uid, conf) =>
    match dlookup chan conf.channels with
    | none => (r, .notFollowing)
    | some _ =>
      let chans := ddel chan conf.channels
      if chans.length = 0 then (ddel uid r, .ok)
      else (dinsert uid { conf with channels := chans } r, .ok)

/-- The registry invariant from the spec: no followed source has an
empty destination set. -/
def noEmptySources (r : Registry) : Prop :=
  ∀ p ∈ r, p.2.channels ≠ []

instance : DecidablePred noEmptySources := fun r =>
  inferInstanceAs (Decidable (∀ p ∈ r, p.2.channels ≠ []))

/-- Cursor of destination `ch` for source `uid` in registry `r`. -/
def cursorOf (r : Registry) (uid ch : Nat) : Option Nat :=
  (dlookup uid r).bind (fun conf => (dlookup ch conf.channels).map (fun c => c.last_tweet_id))

/-! ## Stream Supervisor model

`stream_start`/`stream_stop`/`stream_restart` are synchronous methods
manipulating the single handle `self.stream_task`.  The consumer task
created by `loop.create_task(self.stream_tweets())` runs cooperatively:
it is `pending` until the event loop first schedules it, then holds the
open stream subscription (`subscribed`, the body of
`async with ... .filter.post(...) as stream`).  `task.cancel()` only
*requests* cancellation — the `CancelledError` is delivered at the
task's next suspension point, when the event loop next runs it — so a
status carries a `…C` variant for "cancel requested but not yet
processed".  `schedStep` is one event-loop step running a given task. -/

inductive TaskStatus where
  | pending : TaskStatus
  | pendingC : TaskStatus
  | subscribed : TaskStatus
  | subscribedC : TaskStatus
  | finished : TaskStatus
  deriving Repr, DecidableEq

/-- State owned by the cog and the event loop: the `self.stream_task`
handle, every created consumer task with its status, and a fresh-id
counter. -/
structure SupState where
  streamTask : Option Nat
  tasks : List (Nat × TaskStatus)
  nextId : Nat
  deriving Repr, DecidableEq

def initSup : SupState := ⟨none, [], 0⟩

/-- Effect of `task.cancel()` on a task's status: the request is
recorded, the subscription (if open) stays open. -/
def cancelStatus : TaskStatus → TaskStatus
  | .pending => .pendingC
  | .subscribed => .subscribedC
  | s => s

/-- One event-loop step of a task: a never-run task opens the
subscription; a cancel-requested task observes `CancelledError`,
releases its subscription and finishes; a subscribed task keeps
awaiting stream events. -/
def stepStatus : TaskStatus → TaskStatus
  | .pending => .subscribed
  | .pendingC => .finished
  | .subscribedC => .finished
  | s => s

/-- `Twitter.stream_start`: `if len(self.conf.follows) > 0 and
self.stream_task is None: self.stream_task = create_task(...)`. -/
def stream_start (nFollows : Nat) (s : SupState) : SupState :=
  if 0 < nFollows ∧ s.streamTask = none then
    ⟨some s.nextId, s.tasks ++ [(s.nextId, .pending)], s.nextId + 1⟩
  else s

/-- `Twitter.stream_stop`: `if self.stream_task is not None:
self.stream_task.cancel(); self.stream_task = None`.  It requests
cancellation and returns at once, without awaiting the task. -/
def stream_stop (s : SupState) : SupState :=
  match s.streamTask with
  | none => s
  | some t =>
    ⟨none, s.tasks.map (fun p => if p.1 = t then (t, cancelStatus p.2) else p), s.nextId⟩

/-- `Twitter.stream_restart`: `self.stream_stop(); self.stream_start()`. -/
def stream_restart (nFollows : Nat) (s : SupState) : SupState :=
  stream_start nFollows (stream_stop s)

/-- One scheduling step of the event loop on task `t`. -/
def schedStep (t : Nat) (s : SupState) : SupState :=
  { s with tasks := s.tasks.map (fun p => if p.1 = t then (t, stepStatus p.2) else p) }

/-- The tasks whose stream subscription is currently open (whether or
not their cancellation has been requested). -/
def liveSubs (s : SupState) : List Nat :=
  (s.tasks.filter
    (fun p => p.2 == TaskStatus.subscribed || p.2 == TaskStatus.subscribedC)).map
    (fun p => p.1)

/-- States reachable from startup through the cog's supervisor methods
interleaved with event-loop steps. -/
inductive Reach : SupState → Prop where
  | init : Reach initSup
  | start : ∀ n s, Reach s → Reach (stream_start n s)
  | stop : ∀ s, Reach s → Reach (stream_stop s)
  | restart : ∀ n s, Reach s → Reach (stream_restart n s)
  | sched : ∀ t s, Reach s → Reach (schedStep t s)

/-- A task that has neither finished nor been asked to cancel. -/
def healthyStatus (st : TaskStatus) : Prop :=
  st = TaskStatus.pending ∨ st = TaskStatus.subscribed

/-- Supervisor invariant: every task not yet cancel-requested is the one
tracked by `self.stream_task`, and all recorded ids are below the
fresh-id counter. -/
def supInv (s : SupState) : Prop :=
  (∀ p ∈ s.tasks, healthyStatus p.2 → s.streamTask = some p.1) ∧
  (∀ p ∈ s.tasks, p.1 < s.nextId)

/-- Deliveries received by channel `ch` out of a dispatch log, in order. -/
def deliveredTo (ch : Nat) (log : List (Nat × Nat)) : List Nat :=
  (log.filter (fun e => e.1 == ch)).map (fun e => e.2)

/-- The follow entry after a tweet with id `tid` was dispatched to every
destination: all cursors overwritten with `tid`. -/
def setCursors (tid : Nat) (conf : FollowConf) : FollowConf :=
  { conf with channels := conf.channels.map (fun p => (p.1, ⟨tid⟩)) }

/-- The delivery log of replaying `tids` in order, each tweet delivered
to every channel of `keys` in order. -/
def fullLog (keys : List Nat) : List Nat → List (Nat × Nat)
  | [] => []
  | tid :: rest => keys.map (fun k => (k, tid)) ++ fullLog keys rest

/-! ## Dictionary lemmas -/

theorem dlookup_dinsert_self (k : Nat) (v : α) (d : List (Nat × α)) :
    dlookup k (dinsert k v d) = some v := by
  induction d with
  | nil => simp [dinsert, dlookup]
  | cons hd rest ih =>
    by_cases h : hd.1 = k
    · simp [dinsert, dlookup, h]
    · simp [dinsert, dlookup, h, ih]

theorem dlookup_dinsert_ne (k k' : Nat) (v : α) (d : List (Nat × α)) (h : k' ≠ k) :
    dlookup k' (dinsert k v d) = dlookup k' d := by
  induction d with
  | nil => simp [dinsert, dlookup, Ne.symm h]
  | cons hd rest ih =>
    obtain ⟨a, b⟩ := hd
    by_cases hk : a = k
    · subst hk
      simp [dinsert, dlookup, Ne.symm h]
    · simp [dinsert, dlookup, hk, ih]

theorem dinsert_dinsert (k : Nat) (a b : α) (d : List (Nat × α)) :
    dinsert k a (dinsert k b d) = dinsert k a d := by
  induction d with
  | nil => simp [dinsert]
  | cons hd rest ih =>
    by_cases h : hd.1 = k
    · simp [dinsert, h]
    · simp [dinsert, h, ih]

/-- Filtering twice with the same predicate changes nothing. -/
theorem filter_idem (p : α → Bool) (l : List α) : (l.filter p).filter p = l.filter p :=
  List.filter_eq_self.mpr (fun _ ha => List.of_mem_filter ha)

/-! ## Delivery-loop lemmas -/

/-- When every send succeeds, the delivery loop rewrites every cursor to
the tweet id, delivers to every channel in order, and does not abort. -/
theorem deliverLoop_ok (sendOk : Nat → Nat → Bool) (tid : Nat)
    (hok : ∀ c t, sendOk c t = true) (chs : List (Nat × ChannelConf)) :
    deliverLoop sendOk tid chs
      = (chs.map (fun p => (p.1, ⟨tid⟩)), chs.map (fun p => p.1), false) := by
  induction chs with
  | nil => rfl
  | cons hd rest ih =>
    obtain ⟨ch, cc⟩ := hd
    simp [deliverLoop, hok, ih]

/-- When every send succeeds, `dispatch_tweet` of a followed user sets
every cursor of the source to the tweet id and delivers everywhere. -/
theorem dispatch_tweet_ok (sendOk : Nat → Nat → Bool)
    (hok : ∀ c t, sendOk c t = true) (r : Registry) (uid tid : Nat) (conf : FollowConf)
    (h : dlookup uid r = some conf) :
    dispatch_tweet sendOk r ⟨uid, tid⟩
      = ⟨dinsert uid (setCursors tid conf) r, conf.channels.map (fun p => p.1), false⟩ := by
  simp [dispatch_tweet, h, deliverLoop_ok sendOk tid hok, setCursors]

/-- If the sends succeed on a prefix of the channel dict and fail at the
next channel, the loop updates exactly the prefix's cursors, delivers
exactly to the prefix, and aborts; the failing channel and every channel
after it keep their cursors and receive nothing. -/
theorem deliverLoop_fail (sendOk : Nat → Nat → Bool) (tid : Nat)
    (pre post : List (Nat × ChannelConf)) (chF : Nat) (ccF : ChannelConf)
    (hpre : ∀ p ∈ pre, sendOk p.1 tid = true) (hF : sendOk chF tid = false) :
    deliverLoop sendOk tid (pre ++ (chF, ccF) :: post)
      = (pre.map (fun p => (p.1, ⟨tid⟩)) ++ (chF, ccF) :: post,
         pre.map (fun p => p.1), true) := by
  induction pre with
  | nil => simp [deliverLoop, hF]
  | cons hd rest ih =>
    obtain ⟨ch, cc⟩ := hd
    have hch : sendOk ch tid = true := hpre (ch, cc) (List.mem_cons_self _ _)
    have hrest : ∀ p ∈ rest, sendOk p.1 tid = true :=
      fun p hp => hpre p (List.mem_cons_of_mem _ hp)
    simp [deliverLoop, hch, ih hrest]

/-- Every entry surviving `remove_channels_from_conf` has a non-empty
channel dict none of whose keys matches the removed set. -/
theorem remove_channels_clean (chs : List PyVal) (r : Registry) :
    ∀ p ∈ (remove_channels_from_conf chs r).reg,
      (∀ q ∈ p.2.channels, chs.contains (PyVal.intV q.1) = false) ∧ p.2.channels ≠ [] := by
  induction r with
  | nil => intro p hp; simp [remove_channels_from_conf] at hp
  | cons hd rest ih =>
    obtain ⟨uid, conf⟩ := hd
    intro p hp
    by_cases h :
        (conf.channels.filter (fun q => !(chs.contains (PyVal.intV q.1)))).length = 0
    · rw [remove_channels_from_conf] at hp
      simp only [h, if_pos] at hp
      exact ih p hp
    · rw [remove_channels_from_conf] at hp
      simp only [h, if_neg, List.mem_cons, not_false_eq_true] at hp
      rcases hp with hp | hp
      · subst hp
        refine ⟨fun q hq => ?_, fun hnil => ?_⟩
        · have := List.of_mem_filter hq
          simpa using this
        · have hnil' :
              conf.channels.filter (fun q => !(chs.contains (PyVal.intV q.1))) = [] := hnil
          rw [hnil'] at h
          simp at h
      · exact ih p hp

/-- On a registry all of whose entries are non-empty and free of the
removed keys, `remove_channels_from_conf` is the identity and both
counters are `0`. -/
theorem remove_channels_noop (chs : List PyVal) (r : Registry)
    (hr : ∀ p ∈ r,
      (∀ q ∈ p.2.channels, chs.contains (PyVal.intV q.1) = false) ∧ p.2.channels ≠ []) :
    remove_channels_from_conf chs r = ⟨r, 0, 0⟩ := by
  induction r with
  | nil => rfl
  | cons hd rest ih =>
    obtain ⟨uid, conf⟩ := hd
    have hhd := hr (uid, conf) (List.mem_cons_self _ _)
    have hne : conf.channels ≠ [] := hhd.2
    have hfil : conf.channels.filter (fun q => !(chs.contains (PyVal.intV q.1)))
        = conf.channels :=
      List.filter_eq_self.mpr (fun q hq => by
        have hc : chs.contains (PyVal.intV q.1) = false := hhd.1 q hq
        simpa using hc)
    have hlen : ¬ (conf.channels.filter
        (fun q => !(chs.contains (PyVal.intV q.1)))).length = 0 := by
      rw [hfil, List.length_eq_zero]
      exact hne
    have hrest := ih (fun p hp => hr p (List.mem_cons_of_mem _ hp))
    rw [remove_channels_from_conf]
    simp only [hrest]
    rw [if_neg hlen, hfil]
    simp [Nat.sub_self]

/-- C5: `remove_channels_from_conf` is idempotent — running it a second
time with the same argument set removes no destination and unfollows no
source (both returned counters are `0`) and returns the registry
unchanged; in particular removing already-absent destinations is a
counted no-op, not an error. -/
theorem c5_idempotent (chs : List PyVal) (r : Registry) :
    remove_channels_from_conf chs (remove_channels_from_conf chs r).reg
      = ⟨(remove_channels_from_conf chs r).reg, 0, 0⟩ :=
  remove_channels_noop chs _ (remove_channels_clean chs r)


/-- C3, amended: when dispatching one item, the destinations iterated
*before* a failing one receive the item and have their cursors advanced
to its id; the failing destination's cursor is not advanced; but the
failure aborts the loop, so the destinations *after* it receive nothing
and keep their cursors, and the exception escapes the dispatcher. -/
theorem c3_amended (sendOk : Nat → Nat → Bool) (r : Registry) (t : Tweet)
    (conf : FollowConf) (pre post : List (Nat × ChannelConf)) (chF : Nat)
    (ccF : ChannelConf)
    (hconf : dlookup t.user_id r = some conf)
    (hsplit : conf.channels = pre ++ (chF, ccF) :: post)
    (hpre : ∀ p ∈ pre, sendOk p.1 t.id = true)
    (hF : sendOk chF t.id = false) :
    dispatch_tweet sendOk r t
      = ⟨dinsert t.user_id
            { conf with channels := pre.map (fun p => (p.1, ⟨t.id⟩)) ++ (chF, ccF) :: post }
            r,
         pre.map (fun p => p.1), true⟩ := by
  simp [dispatch_tweet, hconf, hsplit, deliverLoop_fail sendOk t.id pre post chF ccF hpre hF]

/-- The delivery loop either leaves a channel's entry alone or rewrites
it to the dispatched tweet id (and only for channels that were already
present). -/
theorem deliverLoop_lookup (sendOk : Nat → Nat → Bool) (tid : Nat)
    (chs : List (Nat × ChannelConf)) (ch : Nat) :
    dlookup ch (deliverLoop sendOk tid chs).1 = dlookup ch chs ∨
    dlookup ch (deliverLoop sendOk tid chs).1 = some ⟨tid⟩ := by
  induction chs with
  | nil => left; rfl
  | cons hd rest ih =>
    obtain ⟨k, cc⟩ := hd
    by_cases hs : sendOk k tid = true
    · by_cases hk : k = ch
      · subst hk
        right
        simp [deliverLoop, hs, dlookup]
      · rcases ih with h | h
        · left
          simp [deliverLoop, hs, dlookup, hk, h]
        · right
          simp [deliverLoop, hs, dlookup, hk, h]
    · left
      simp [deliverLoop, Bool.of_not_eq_true hs]

/-- C2, amended: each successful delivery overwrites the destination's
cursor with the dispatched item's id, unconditionally.  Consequently a
cursor write is non-decreasing whenever the dispatched item is at least
as new as the current cursor (which is the case for live-stream items),
but reconciliation replay of an item older than a destination's cursor
regresses it, as the counterexample shows. -/
theorem c2_amended (sendOk : Nat → Nat → Bool) (r : Registry) (t : Tweet)
    (ch c : Nat) (hc : cursorOf r t.user_id ch = some c) (hle : c ≤ t.id) :
    ∀ c', cursorOf (dispatch_tweet sendOk r t).reg t.user_id ch = some c' → c ≤ c' := by
  intro c' h'
  cases hconf : dlookup t.user_id r with
  | none => simp [cursorOf, hconf] at hc
  | some conf =>
    simp only [cursorOf, hconf, Option.bind_eq_bind, Option.some_bind] at hc
    simp only [dispatch_tweet, hconf, cursorOf,
      dlookup_dinsert_self, Option.bind_eq_bind, Option.some_bind] at h'
    rcases deliverLoop_lookup sendOk t.id conf.channels ch with h | h
    · rw [h] at h'
      rw [h'] at hc
      exact le_of_eq (Option.some_injective _ hc).symm
    · rw [h] at h'
      simp at h'
      rw [← h']
      exact hle

/-- C2 amended, witness: destination `100` of source `42` sits at cursor
`998`; dispatching the live tweet `1002` (`998 ≤ 1002`) moves the cursor
to `1002 ≥ 998`. -/
theorem c2_witness : 998 ≤ 1002 ∧
    cursorOf
        (dispatch_tweet (fun _ _ => true) [(42, ⟨"alice", [(100, ⟨998⟩)]⟩)]
          ⟨42, 1002⟩).reg 42 100 = some 1002 ∧
    998 ≤ (1002 : Nat) := by
  refine ⟨by decide, by decide, ?_⟩
  exact c2_amended (fun _ _ => true) [(42, ⟨"alice", [(100, ⟨998⟩)]⟩)] ⟨42, 1002⟩
    100 998 (by decide) (by decide) 1002 (by decide)

/-- C9, amended: there is no "none" sentinel and no skip.  Computing
`since_id` for a followed source with an empty destination set raises
(`ValueError` from `min()` on an empty sequence, the `Except.error` of
the model), and when `update_feeds` reaches such a source the exception
aborts the entire reconciliation run with nothing dispatched, instead of
skipping the source. -/
theorem c9_amended :
    (∀ (up : Nat → List Nat) (r : Registry) (uid : Nat) (conf : FollowConf),
      dlookup uid r = some conf → conf.channels = [] →
      get_timeline_user up r uid = Except.error ()) ∧
    (∀ (up : Nat → List Nat) (sendOk : Nat → Nat → Bool) (uid : Nat) (sn : String)
      (rest : Registry),
      update_feeds up sendOk ((uid, ⟨sn, []⟩) :: rest)
        = ⟨(uid, ⟨sn, []⟩) :: rest, [], true⟩) := by
  constructor
  · intro up r uid conf h1 h2
    simp [get_timeline_user, h1, h2, minCursor]
  · intro up sendOk uid sn rest
    simp [update_feeds, update_feeds_go, get_timeline_user, dlookup, minCursor]

/-- C9 amended, witness: both conjuncts at a concrete registry whose
source `3` has no destinations. -/
theorem c9_witness :
    get_timeline_user (fun _ => [5]) [(3, ⟨"eve", []⟩)] 3 = Except.error () ∧
    update_feeds (fun _ => [5]) (fun _ _ => true) [(3, ⟨"eve", []⟩)]
      = ⟨[(3, ⟨"eve", []⟩)], [], true⟩ :=
  ⟨c9_amended.1 (fun _ => [5]) [(3, ⟨"eve", []⟩)] 3 ⟨"eve", []⟩ (by decide) rfl,
   c9_amended.2 (fun _ => [5]) (fun _ _ => true) 3 "eve" []⟩

/-- Every element of `x :: xs` is bounded by `xs.foldl max x` (how
Python's `max` over a non-empty sequence is modelled). -/
theorem le_foldl_max (xs : List Nat) (x : Nat) : ∀ y ∈ x :: xs, y ≤ xs.foldl max x := by
  induction xs generalizing x with
  | nil =>
    intro y hy
    simp at hy
    simp [hy]
  | cons z zs ih =>
    intro y hy
    have hstep : ∀ w ∈ max x z :: zs, w ≤ List.foldl max (max x z) zs := ih (max x z)
    rcases List.mem_cons.mp hy with rfl | hy'
    · calc y ≤ max y z := le_max_left _ _
        _ ≤ List.foldl max (max y z) zs := hstep _ (List.mem_cons_self _ _)
    · rcases List.mem_cons.mp hy' with rfl | hy''
      · calc y ≤ max x y := le_max_right _ _
          _ ≤ List.foldl max (max x y) zs := hstep _ (List.mem_cons_self _ _)
      · exact hstep y (List.mem_cons_of_mem _ hy'')

/-- `xs.foldl max x` is one of the elements of `x :: xs`. -/
theorem foldl_max_mem (xs : List Nat) (x : Nat) : xs.foldl max x ∈ x :: xs := by
  induction xs generalizing x with
  | nil => simp
  | cons z zs ih =>
    have := ih (max x z)
    rcases List.mem_cons.mp this with h | h
    · rcases max_choice x z with hx | hz
      · rw [List.foldl_cons, h, hx]
        exact List.mem_cons_self _ _
      · rw [List.foldl_cons, h, hz]
        exact List.mem_cons_of_mem _ (List.mem_cons_self _ _)
    · rw [List.foldl_cons]
      exact List.mem_cons_of_mem _ (List.mem_cons_of_mem _ h)

/-- What `max(c.last_tweet_id for c in conf.channels.values())` returns:
an upper bound of all cursors that is itself one of the cursors. -/
theorem maxCursor_spec (chs : List (Nat × ChannelConf)) (m : Nat)
    (h : maxCursor chs = some m) :
    (∀ p ∈ chs, p.2.last_tweet_id ≤ m) ∧ ∃ p ∈ chs, p.2.last_tweet_id = m := by
  cases chs with
  | nil => simp [maxCursor] at h
  | cons hd tl =>
    simp only [maxCursor, List.map_cons, Option.some.injEq] at h
    subst h
    constructor
    · intro p hp
      rcases List.mem_cons.mp hp with rfl | hp'
      · exact le_foldl_max _ _ _ (List.mem_cons_self _ _)
      · exact le_foldl_max _ _ _
          (List.mem_cons_of_mem _ (List.mem_map_of_mem (fun q => q.2.last_tweet_id) hp'))
    · have hm := foldl_max_mem (tl.map (fun q => q.2.last_tweet_id)) hd.2.last_tweet_id
      rcases List.mem_cons.mp hm with h | h
      · exact ⟨hd, List.mem_cons_self _ _, h.symm⟩
      · rcases List.mem_map.mp h with ⟨q, hq, hq2⟩
        exact ⟨q, List.mem_cons_of_mem _ hq, hq2⟩

/-- C8: `follow` seeds the new destination's cursor and delivers
nothing.  First branch: on a handle with no registry entry, the upstream
account's last known tweet id is recorded as the new channel's cursor
and every other source's entry is untouched (the only send is the
command's `ctx.send(tweet_url)` response, not a dispatch).  Second
branch: on an already-followed handle from a new channel, the upstream
API is not consulted (the branch holds for *every* lookup value `lk`)
and the new channel's cursor is seeded with `max(c.last_tweet_id ...)`
over the existing channels — an upper bound of the existing cursors that
equals one of them. -/
theorem c8_seed_cursor :
    (∀ (r : Registry) (sn : String) (chan uid sid : Nat),
      findByScreenName r sn = none →
      follow (.found uid false (some sid)) r sn chan
          = (dinsert uid ⟨sn, [(chan, ⟨sid⟩)]⟩ r, .ok sid) ∧
      ∀ uid2, uid2 ≠ uid →
        dlookup uid2 (follow (.found uid false (some sid)) r sn chan).1 = dlookup uid2 r) ∧
    (∀ (lk : UserLookup) (r : Registry) (sn : String) (chan uid m : Nat)
      (conf : FollowConf),
      findByScreenName r sn = some (uid, conf) →
      dlookup chan conf.channels = none →
      maxCursor conf.channels = some m →
      follow lk r sn chan
          = (dinsert uid { conf with channels := dinsert chan ⟨m⟩ conf.channels } r, .ok m) ∧
      (∀ p ∈ conf.channels, p.2.last_tweet_id ≤ m) ∧
      ∃ p ∈ conf.channels, p.2.last_tweet_id = m) := by
  constructor
  · intro r sn chan uid sid hnone
    constructor
    · simp [follow, hnone, dinsert_dinsert]
    · intro uid2 hne
      have hfo : (follow (.found uid false (some sid)) r sn chan).1
          = dinsert uid ⟨sn, [(chan, ⟨sid⟩)]⟩ (dinsert uid ⟨sn, []⟩ r) := by
        simp [follow, hnone]
      rw [hfo, dlookup_dinsert_ne _ _ _ _ hne, dlookup_dinsert_ne _ _ _ _ hne]
  · intro lk r sn chan uid m conf hfind hchan hmax
    refine ⟨?_, (maxCursor_spec conf.channels m hmax).1, (maxCursor_spec conf.channels m hmax).2⟩
    simp [follow, hfind, hchan, hmax]

/-- C8, witness: first follow of `carol` (user id `9`, latest tweet
`123`) from channel `500` seeds cursor `123`; a later follow of the
already-known `dia` from fresh channel `600` seeds the maximum `9` of
the existing cursors `5` and `9`, without consulting upstream
(`UserLookup.notFound`). -/
theorem c8_witness :
    follow (.found 9 false (some 123)) ([] : Registry) "carol" 500
        = (dinsert 9 ⟨"carol", [(500, ⟨123⟩)]⟩ [], .ok 123) ∧
    follow .notFound [(8, ⟨"dia", [(10, ⟨5⟩), (11, ⟨9⟩)]⟩)] "dia" 600
        = (dinsert 8 ⟨"dia", dinsert 600 ⟨9⟩ [(10, ⟨5⟩), (11, ⟨9⟩)]⟩
            [(8, ⟨"dia", [(10, ⟨5⟩), (11, ⟨9⟩)]⟩)], .ok 9) :=
  ⟨(c8_seed_cursor.1 [] "carol" 500 9 123 (by decide)).1,
   (c8_seed_cursor.2 .notFound [(8, ⟨"dia", [(10, ⟨5⟩), (11, ⟨9⟩)]⟩)] "dia" 600 8 9
      ⟨"dia", [(10, ⟨5⟩), (11, ⟨9⟩)]⟩ (by decide) (by decide) (by decide)).1⟩

/-- C3 amended, witness: source `42` has destinations `100` then `200`;
the send of tweet `1005` succeeds on `100` and fails on `200`.  Exactly
`100` receives it and moves to cursor `1005`; `200` keeps cursor `998`. -/
theorem c3_witness :
    dispatch_tweet (fun ch _ => ch != 200)
        [(42, ⟨"alice", [(100, ⟨1001⟩), (200, ⟨998⟩)]⟩)] ⟨42, 1005⟩
      = ⟨[(42, ⟨"alice", [(100, ⟨1005⟩), (200, ⟨998⟩)]⟩)], [100], true⟩ := by
  have h := c3_amended (fun ch _ => ch != 200)
    [(42, ⟨"alice", [(100, ⟨1001⟩), (200, ⟨998⟩)]⟩)] ⟨42, 1005⟩
    ⟨"alice", [(100, ⟨1001⟩), (200, ⟨998⟩)]⟩ [(100, ⟨1001⟩)] [] 200 ⟨998⟩
    (by decide) (by decide) (by decide) (by decide)
  simpa [dinsert] using h

/-- C1, counterexample: with destinations `100` (cursor `1001`) and
`200` (cursor `998`) both following source `42` and items
`999,1000,1001,1002` upstream, reconciliation delivers *all four* items
to destination `100` — not only `1002` as the claim states — because
`update_feeds` fetches from the minimum cursor of the source and
`dispatch_tweet` sends every item to every destination without checking
that destination's own cursor. -/
theorem c1_counterexample :
    deliveredTo 100
        (update_feeds (fun uid => if uid = 42 then [1002, 1001, 1000, 999] else [])
          (fun _ _ => true)
          [(42, ⟨"alice", [(100, ⟨1001⟩), (200, ⟨998⟩)]⟩)]).log
      = [999, 1000, 1001, 1002] ∧
    [999, 1000, 1001, 1002] ≠ [1002] := by
  constructor
  · decide
  · decide

/-- C2, counterexample: destination `100` of source `42` has cursor
`1001`; after a reconciliation in which the upstream timeline holds the
single item `999` (newer than the source's minimum cursor `998`), the
cursor of destination `100` has been overwritten with `999` — a strictly
smaller value — because `dispatch_tweet` stores the dispatched item's id
unconditionally. -/
theorem c2_counterexample :
    cursorOf [(42, ⟨"alice", [(100, ⟨1001⟩), (200, ⟨998⟩)]⟩)] 42 100 = some 1001 ∧
    cursorOf
        (update_feeds (fun _ => [999]) (fun _ _ => true)
          [(42, ⟨"alice", [(100, ⟨1001⟩), (200, ⟨998⟩)]⟩)]).reg 42 100
      = some 999 ∧
    999 < 1001 := by
  refine ⟨by decide, by decide, by decide⟩

/-- C3, counterexample: source `42` has destinations `100` then `200`;
the send to `100` fails while a send to `200` would succeed.  The
dispatch delivers to *nobody* (the exception aborts the loop before
`200` is reached, contradicting the claim that other destinations still
receive the item), leaves the registry unchanged, and escapes. -/
theorem c3_counterexample :
    dispatch_tweet (fun ch _ => ch != 100)
        [(42, ⟨"alice", [(100, ⟨1001⟩), (200, ⟨998⟩)]⟩)] ⟨42, 1005⟩
      = ⟨[(42, ⟨"alice", [(100, ⟨1001⟩), (200, ⟨998⟩)]⟩)], [], true⟩ := by
  decide

/-- C4: evaluating `follow` at the failing input.  Starting from a
registry satisfying the no-empty-source invariant, following the fresh
handle `bob` (user id `7`, not protected, `status` field absent because
the account has never tweeted) aborts with the uncaught `KeyError` —
*after* `self.conf.follows[user['id']] = conf` has stored an entry with
an empty channel dict, so the registry mutation leaves a source with
zero destinations behind. -/
theorem c4_invariant_broken :
    noEmptySources [(42, ⟨"alice", [(100, ⟨1001⟩), (200, ⟨998⟩)]⟩)] ∧
    (follow (.found 7 false none) [(42, ⟨"alice", [(100, ⟨1001⟩), (200, ⟨998⟩)]⟩)] "bob" 300
      = ([(42, ⟨"alice", [(100, ⟨1001⟩), (200, ⟨998⟩)]⟩), (7, ⟨"bob", []⟩)],
         .errNoStatus)) ∧
    ¬ noEmptySources
        [(42, ⟨"alice", [(100, ⟨1001⟩), (200, ⟨998⟩)]⟩), (7, ⟨"bob", []⟩)] := by
  refine ⟨by decide, by decide, by decide⟩

/-- C6: evaluating the channel-deletion handler at the failing input.
Source `42` is followed exactly from channel `100`; the deletion event
for channel `100` removes *nothing* and reports `(0, 0)`, because
`on_guild_channel_delete` passes the channel object itself (not
`channel.id`) into `remove_channels_from_conf`, and a channel object is
never equal to the integer keys of `conf.channels`.  The guild-removal
handler is broken the same way (it passes the generator expression
unexpanded) and also removes nothing, as the second conjunct shows;
the third conjunct shows that `remove_channels_from_conf` itself, handed
the actual int id `100`, would remove the destination and delete the
emptied source with counts `(1, 1)` — the slip is at the call sites. -/
theorem c6_channel_delete_noop :
    on_guild_channel_delete 100 [(42, ⟨"alice", [(100, ⟨5⟩)]⟩)]
      = ⟨[(42, ⟨"alice", [(100, ⟨5⟩)]⟩)], 0, 0⟩ ∧
    on_guild_remove [100] [(42, ⟨"alice", [(100, ⟨5⟩)]⟩)]
      = ⟨[(42, ⟨"alice", [(100, ⟨5⟩)]⟩)], 0, 0⟩ ∧
    remove_channels_from_conf [PyVal.intV 100] [(42, ⟨"alice", [(100, ⟨5⟩)]⟩)]
      = ⟨[], 1, 1⟩ := by
  refine ⟨by decide, by decide, by decide⟩

/-- C7, counterexample: start the consumer with one followed source and
let the event loop run it (its subscription opens); a follow of a second
source triggers `stream_restart`, and after the event loop first runs
the *new* task, both the old and the new subscription are open at once
(`liveSubs` has two elements) — `stream_stop` requested cancellation but
returned without waiting for the old task to release its subscription,
as the middle conjunct shows for the state right after the stop. -/
theorem c7_counterexample :
    liveSubs (schedStep 1 (stream_restart 2 (schedStep 0 (stream_start 1 initSup))))
      = [0, 1] ∧
    liveSubs (stream_stop (schedStep 0 (stream_start 1 initSup))) = [0] ∧
    (stream_stop (schedStep 0 (stream_start 1 initSup))).streamTask = none := by
  refine ⟨by decide, by decide, by decide⟩

/-- C9, counterexample: the registry contains source `7` with an empty
destination set followed by a healthy source `42` whose destination
`100` (cursor `1`) is owed upstream item `2`.  `update_feeds` does not
skip source `7`: computing its minimum cursor raises (`min()` of an
empty sequence, modelled as `Except.error`), the exception aborts the
whole reconciliation, and nothing at all is delivered — there is no
"none" sentinel and no defensive no-op. -/
theorem c9_counterexample :
    get_timeline_user (fun _ => [2]) [(7, ⟨"bob", []⟩)] 7 = Except.error () ∧
    update_feeds (fun _ => [2]) (fun _ _ => true)
        [(7, ⟨"bob", []⟩), (42, ⟨"alice", [(100, ⟨1⟩)]⟩)]
      = ⟨[(7, ⟨"bob", []⟩), (42, ⟨"alice", [(100, ⟨1⟩)]⟩)], [], true⟩ := by
  refine ⟨by rfl, by decide⟩

/-- C10: evaluating `follow` at the failing input.  On an empty
registry, following handle `bob` whose upstream lookup succeeds (user id
`7`, not protected) but carries no `status` field — the account has
never tweeted — ends in the uncaught `KeyError('status')` rather than a
`TwitterError`, and the registry afterwards still contains the entry for
user `7` with an empty channel dict that was stored before the failing
field access. -/
theorem c10_follow_no_status :
    follow (.found 7 false none) ([] : Registry) "bob" 100
      = ([(7, ⟨"bob", []⟩)], .errNoStatus) ∧
    dlookup 7 (follow (.found 7 false none) ([] : Registry) "bob" 100).1
      = some ⟨"bob", []⟩ := by
  refine ⟨by decide, by decide⟩

/-! ## Reconciliation replay (C1) -/

theorem setCursors_keys (tid : Nat) (conf : FollowConf) :
    (setCursors tid conf).channels.map (fun p => p.1) = conf.channels.map (fun p => p.1) := by
  simp [setCursors, List.map_map]

theorem setCursors_setCursors (a b : Nat) (conf : FollowConf) :
    setCursors a (setCursors b conf) = setCursors a conf := by
  simp [setCursors, List.map_map]

theorem dinsert_self_single (uid : Nat) (v w : α) :
    dinsert uid v [(uid, w)] = [(uid, v)] := by
  simp [dinsert]

theorem filter_keys_map_nil (keys : List Nat) (ch tid : Nat) (h : ch ∉ keys) :
    (keys.map (fun k => (k, tid))).filter (fun e => e.1 == ch) = [] := by
  rw [List.filter_eq_nil_iff]
  intro e he
  rcases List.mem_map.mp he with ⟨k, hk, rfl⟩
  have hne : k ≠ ch := fun heq => h (heq ▸ hk)
  simp [hne]

theorem filter_keys_map_single (keys : List Nat) (ch tid : Nat)
    (hnd : keys.Nodup) (hch : ch ∈ keys) :
    (keys.map (fun k => (k, tid))).filter (fun e => e.1 == ch) = [(ch, tid)] := by
  induction keys with
  | nil => simp at hch
  | cons k ks ih =>
    rcases List.nodup_cons.mp hnd with ⟨hknot, hnd2⟩
    by_cases hk : k = ch
    · subst hk
      simp only [List.map_cons, List.filter_cons]
      rw [if_pos (by simp), filter_keys_map_nil ks k tid hknot]
    · have hch2 : ch ∈ ks := by
        rcases List.mem_cons.mp hch with h | h
        · exact absurd h.symm hk
        · exact h
      simp only [List.map_cons, List.filter_cons]
      rw [if_neg (by simp [hk]), ih hnd2 hch2]

theorem deliveredTo_append (ch : Nat) (l1 l2 : List (Nat × Nat)) :
    deliveredTo ch (l1 ++ l2) = deliveredTo ch l1 ++ deliveredTo ch l2 := by
  simp [deliveredTo, List.filter_append]

/-- A destination present exactly once among the keys receives, out of a
full replay log, exactly the replayed ids in replay order. -/
theorem deliveredTo_fullLog (keys : List Nat) (ch : Nat) (hnd : keys.Nodup)
    (hch : ch ∈ keys) : ∀ tids, deliveredTo ch (fullLog keys tids) = tids := by
  intro tids
  induction tids with
  | nil => rfl
  | cons tid rest ih =>
    have hblock : deliveredTo ch (keys.map (fun k => (k, tid))) = [tid] := by
      rw [deliveredTo, filter_keys_map_single keys ch tid hnd hch]
      rfl
    rw [fullLog, deliveredTo_append, ih, hblock]
    rfl

/-- Replaying a list of tweets through the dispatcher on a single-source
registry (all sends succeeding): every tweet is delivered to every
channel in order, the run does not abort, and the final entry is the
original one with all cursors overwritten by each tweet in turn. -/
theorem dispatch_list_single (sendOk : Nat → Nat → Bool)
    (hok : ∀ c t, sendOk c t = true) (uid : Nat) :
    ∀ (tids : List Nat) (conf : FollowConf),
      dispatch_list sendOk uid tids [(uid, conf)]
        = ⟨[(uid, tids.foldl (fun c t => setCursors t c) conf)],
           fullLog (conf.channels.map (fun p => p.1)) tids, false⟩ := by
  intro tids
  induction tids with
  | nil => intro conf; rfl
  | cons tid rest ih =>
    intro conf
    have hl : dlookup uid [(uid, conf)] = some conf := by simp [dlookup]
    have hd := dispatch_tweet_ok sendOk hok [(uid, conf)] uid tid conf hl
    simp only [dispatch_list, hd, dinsert_self_single, ih (setCursors tid conf),
      setCursors_keys, fullLog]
    simp [List.foldl_cons]

theorem foldl_setCursors_getLast :
    ∀ (tids : List Nat) (conf : FollowConf) (h : tids ≠ []),
      tids.foldl (fun c t => setCursors t c) conf = setCursors (tids.getLast h) conf := by
  intro tids
  induction tids with
  | nil => intro conf h; exact absurd rfl h
  | cons a rest ih =>
    intro conf h
    cases rest with
    | nil => rfl
    | cons b rest2 =>
      have hne : b :: rest2 ≠ [] := List.cons_ne_nil _ _
      rw [List.foldl_cons, ih (setCursors a conf) hne, setCursors_setCursors,
        List.getLast_cons hne]

/-- C1, amended: during reconciliation of a source, every destination
following it receives exactly the items whose id is strictly greater
than the *minimum* `lastDeliveredId` across the source's destinations
(not the destination's own cursor), in increasing id order, and its
cursor afterwards equals the id of the newest item; items a destination
had already received are delivered to it again whenever another
destination of the same source is further behind. -/
theorem c1_amended (up : Nat → List Nat) (sendOk : Nat → Nat → Bool)
    (uid ch m : Nat) (conf : FollowConf)
    (hok : ∀ c t, sendOk c t = true)
    (hnd : (conf.channels.map (fun p => p.1)).Nodup)
    (hch : ch ∈ conf.channels.map (fun p => p.1))
    (hmin : minCursor conf.channels = some m)
    (hm : 0 < m)
    (hsorted : List.Pairwise (fun a b => b < a) (up uid))
    (hne : (fetchSince up uid m).reverse ≠ []) :
    deliveredTo ch (update_feeds up sendOk [(uid, conf)]).log
        = (fetchSince up uid m).reverse ∧
    (update_feeds up sendOk [(uid, conf)]).aborted = false ∧
    List.Pairwise (fun a b => a < b) ((fetchSince up uid m).reverse) ∧
    (update_feeds up sendOk [(uid, conf)]).reg
        = [(uid, setCursors ((fetchSince up uid m).reverse.getLast hne) conf)] := by
  have htl : get_timeline_user up [(uid, conf)] uid = .ok (fetchSince up uid m) := by
    simp [get_timeline_user, dlookup, hmin, hm]
  have hdl := dispatch_list_single sendOk hok uid ((fetchSince up uid m).reverse) conf
  have hfeeds : update_feeds up sendOk [(uid, conf)]
      = ⟨[(uid, ((fetchSince up uid m).reverse).foldl (fun c t => setCursors t c) conf)],
         fullLog (conf.channels.map (fun p => p.1)) ((fetchSince up uid m).reverse),
         false⟩ := by
    have h1 : update_feeds up sendOk [(uid, conf)]
        = update_feeds_go up sendOk [uid] [(uid, conf)] := rfl
    rw [h1]
    rw [update_feeds_go, htl]
    simp only [hdl]
    rw [update_feeds_go]
    simp
  refine ⟨?_, ?_, ?_, ?_⟩
  · rw [hfeeds]
    exact deliveredTo_fullLog _ ch hnd hch _
  · rw [hfeeds]
  · rw [List.pairwise_reverse]
    exact hsorted.filter _
  · rw [hfeeds]
    simp only []
    rw [foldl_setCursors_getLast _ conf hne]

/-- C1 amended, witness: source `1` followed from channels `10` (cursor
`1`) and `20` (cursor `2`), upstream timeline `[3, 2]`.  Reconciliation
replays `2` then `3` to channel `10` (although `10` already had `2`) and
both cursors end at `3`. -/
theorem c1_witness :
    deliveredTo 10 (update_feeds (fun _ => [3, 2]) (fun _ _ => true)
        [(1, ⟨"a", [(10, ⟨1⟩), (20, ⟨2⟩)]⟩)]).log = [2, 3] ∧
    (update_feeds (fun _ => [3, 2]) (fun _ _ => true)
        [(1, ⟨"a", [(10, ⟨1⟩), (20, ⟨2⟩)]⟩)]).reg
      = [(1, ⟨"a", [(10, ⟨3⟩), (20, ⟨3⟩)]⟩)] := by
  have h := c1_amended (fun _ => [3, 2]) (fun _ _ => true) 1 10 1
    ⟨"a", [(10, ⟨1⟩), (20, ⟨2⟩)]⟩ (fun _ _ => rfl) (by decide) (by decide) (by decide)
    (by decide) (by decide) (by decide)
  exact ⟨h.1.trans (by decide), h.2.2.2.trans (by decide)⟩

/-! ## Stream Supervisor invariant (C7) -/

theorem cancelStatus_not_healthy (st : TaskStatus) : ¬ healthyStatus (cancelStatus st) := by
  cases st <;> simp [cancelStatus, healthyStatus]

theorem healthy_stepStatus (st : TaskStatus) (h : healthyStatus (stepStatus st)) :
    healthyStatus st := by
  cases st <;> simp [stepStatus, healthyStatus] at h ⊢

theorem supInv_start (n : Nat) (s : SupState) (h : supInv s) : supInv (stream_start n s) := by
  unfold stream_start
  by_cases hc : 0 < n ∧ s.streamTask = none
  · rw [if_pos hc]
    constructor
    · intro p hp hh
      rcases List.mem_append.mp hp with hp | hp
      · have := h.1 p hp hh
        rw [hc.2] at this
        exact absurd this (by simp)
      · simp only [List.mem_singleton] at hp
        subst hp
        rfl
    · intro p hp
      rcases List.mem_append.mp hp with hp | hp
      · exact Nat.lt_succ_of_lt (h.2 p hp)
      · simp only [List.mem_singleton] at hp
        subst hp
        exact Nat.lt_succ_self _
  · rw [if_neg hc]
    exact h

theorem supInv_stop (s : SupState) (h : supInv s) : supInv (stream_stop s) := by
  cases hst : s.streamTask with
  | none =>
    unfold stream_stop
    rw [hst]
    exact h
  | some t =>
    unfold stream_stop
    rw [hst]
    constructor
    · intro p hp hh
      rcases List.mem_map.mp hp with ⟨q, hq, rfl⟩
      by_cases hq1 : q.1 = t
      · rw [if_pos hq1] at hh
        exact absurd hh (cancelStatus_not_healthy q.2)
      · rw [if_neg hq1] at hh
        have := h.1 q hq hh
        rw [hst] at this
        exact absurd (Option.some.inj this).symm hq1
    · intro p hp
      rcases List.mem_map.mp hp with ⟨q, hq, rfl⟩
      by_cases hq1 : q.1 = t
      · rw [if_pos hq1]
        show t < s.nextId
        rw [← hq1]
        exact h.2 q hq
      · rw [if_neg hq1]
        exact h.2 q hq

theorem supInv_sched (t : Nat) (s : SupState) (h : supInv s) : supInv (schedStep t s) := by
  constructor
  · intro p hp hh
    rcases List.mem_map.mp hp with ⟨q, hq, rfl⟩
    by_cases hq1 : q.1 = t
    · rw [if_pos hq1] at hh ⊢
      have hq2 : healthyStatus q.2 := healthy_stepStatus q.2 hh
      have := h.1 q hq hq2
      show s.streamTask = some t
      rw [← hq1]
      exact this
    · rw [if_neg hq1] at hh ⊢
      exact h.1 q hq hh
  · intro p hp
    rcases List.mem_map.mp hp with ⟨q, hq, rfl⟩
    by_cases hq1 : q.1 = t
    · rw [if_pos hq1]
      show t < s.nextId
      rw [← hq1]
      exact h.2 q hq
    · rw [if_neg hq1]
      exact h.2 q hq

theorem supInv_reach (s : SupState) (h : Reach s) : supInv s := by
  induction h with
  | init =>
    constructor <;> intro p hp <;> simp [initSup] at hp
  | start n s hs ih => exact supInv_start n s ih
  | stop s hs ih => exact supInv_stop s ih
  | restart n s hs ih => exact supInv_start n _ (supInv_stop s ih)
  | sched t s hs ih => exact supInv_sched t s ih

/-- C7, amended: `stream_stop` only *requests* cooperative cancellation
(`task.cancel()`) and clears `self.stream_task` without waiting, so
after a restart the old subscription can stay open alongside the new one
until the event loop runs the cancelled task (see the counterexample).
What the supervisor does maintain, at every state reachable through
start/stop/restart and event-loop steps: every consumer task that has
not been cancel-requested is the unique one tracked by
`self.stream_task` — so at most one subscription is ever *going to
survive*, and any two never-cancelled tasks coincide; moreover
`stream_start` creates a task only when the followed set is non-empty
and no task is tracked. -/
theorem c7_amended (s : SupState) (hs : Reach s) :
    (∀ p ∈ s.tasks, healthyStatus p.2 → s.streamTask = some p.1) ∧
    (∀ p ∈ s.tasks, ∀ q ∈ s.tasks, healthyStatus p.2 → healthyStatus q.2 → p.1 = q.1) := by
  have h := supInv_reach s hs
  refine ⟨h.1, ?_⟩
  intro p hp q hq hhp hhq
  exact Option.some.inj ((h.1 p hp hhp).symm.trans (h.1 q hq hhq))

/-- C7 amended, witness: in the two-subscription state of the
counterexample, the only task not cancel-requested is task `1`, the one
tracked by `self.stream_task`. -/
theorem c7_witness :
    (schedStep 1 (stream_restart 2 (schedStep 0 (stream_start 1 initSup)))).streamTask
      = some 1 :=
  (c7_amended (schedStep 1 (stream_restart 2 (schedStep 0 (stream_start 1 initSup))))
      (Reach.sched 1 _ (Reach.restart 2 _ (Reach.sched 0 _
        (Reach.start 1 _ Reach.init))))).1
    (1, TaskStatus.subscribed) (by decide) (Or.inr rfl)

/-! ## Invariant preservation by the completed registry operations

These support the reading of C4: the invariant does hold after every
*completed* mutation; only the aborted follow of a never-tweeted user
(the C4/C10 failing input) leaves an empty source behind. -/

theorem mem_dinsert (k : Nat) (v : α) (d : List (Nat × α)) :
    ∀ p ∈ dinsert k v d, p = (k, v) ∨ p ∈ d := by
  induction d with
  | nil => intro p hp; simp [dinsert] at hp; simp [hp]
  | cons hd rest ih =>
    intro p hp
    by_cases h : hd.1 = k
    · rw [dinsert, if_pos h] at hp
      rcases List.mem_cons.mp hp with rfl | hp2
      · exact Or.inl rfl
      · exact Or.inr (List.mem_cons_of_mem _ hp2)
    · rw [dinsert, if_neg h] at hp
      rcases List.mem_cons.mp hp with rfl | hp2
      · exact Or.inr (List.mem_cons_self _ _)
      · rcases ih p hp2 with h1 | h1
        · exact Or.inl h1
        · exact Or.inr (List.mem_cons_of_mem _ h1)

theorem mem_ddel (k : Nat) (d : List (Nat × α)) : ∀ p ∈ ddel k d, p ∈ d := by
  induction d with
  | nil => intro p hp; simp [ddel] at hp
  | cons hd rest ih =>
    intro p hp
    by_cases h : hd.1 = k
    · rw [ddel, if_pos h] at hp
      exact List.mem_cons_of_mem _ (ih p hp)
    · rw [ddel, if_neg h] at hp
      rcases List.mem_cons.mp hp with rfl | hp2
      · exact List.mem_cons_self _ _
      · exact List.mem_cons_of_mem _ (ih p hp2)

theorem dinsert_ne_nil (k : Nat) (v : α) (d : List (Nat × α)) : dinsert k v d ≠ [] := by
  cases d with
  | nil => simp [dinsert]
  | cons hd rest =>
    rw [dinsert]
    by_cases h : hd.1 = k
    · simp [h]
    · simp [h]

/-- Bulk removal re-establishes the no-empty-source invariant
unconditionally (it also sweeps entries that were already empty). -/
theorem remove_channels_preserves_invariant (chs : List PyVal) (r : Registry) :
    noEmptySources (remove_channels_from_conf chs r).reg :=
  fun p hp => ((remove_channels_clean chs r) p hp).2

/-- `unfollow` preserves the no-empty-source invariant: a relation left
empty is deleted together with its source. -/
theorem unfollow_preserves_invariant (r : Registry) (sn : String) (chan : Nat)
    (h : noEmptySources r) : noEmptySources (unfollow r sn chan).1 := by
  cases hf : findByScreenName r sn with
  | none => simpa [unfollow, hf] using h
  | some uc =>
    obtain ⟨uid, conf⟩ := uc
    cases hl : dlookup chan conf.channels with
    | none => simpa [unfollow, hf, hl] using h
    | some cc =>
      by_cases hz : (ddel chan conf.channels).length = 0
      · have heq : (unfollow r sn chan).1 = ddel uid r := by
          simp [unfollow, hf, hl, hz]
        rw [heq]
        intro p hp
        exact h p (mem_ddel uid r p hp)
      · have heq : (unfollow r sn chan).1
            = dinsert uid { conf with channels := ddel chan conf.channels } r := by
          simp [unfollow, hf, hl, hz]
        rw [heq]
        intro p hp
        rcases mem_dinsert _ _ _ p hp with rfl | hp2
        · intro hcontra
          apply hz
          have hnil : ddel chan conf.channels = [] := hcontra
          rw [hnil]
          rfl
        · exact h p hp2

/-- A `follow` call that completes successfully (outcome `ok`) preserves
the no-empty-source invariant: whichever branch ran, the touched entry
ends up with at least the invoking channel in it. -/
theorem follow_ok_preserves_invariant (lk : UserLookup) (r : Registry) (sn : String)
    (chan : Nat) (h : noEmptySources r) :
    ∀ r2 m, follow lk r sn chan = (r2, .ok m) → noEmptySources r2 := by
  intro r2 m hf
  unfold follow at hf
  cases hfind : findByScreenName r sn with
  | some uc =>
    obtain ⟨uid, conf⟩ := uc
    rw [hfind] at hf
    by_cases hal : (dlookup chan conf.channels).isSome
    · simp [hal] at hf
    · simp only [hal, Bool.false_eq_true, if_false] at hf
      cases hmax : maxCursor conf.channels with
      | none => rw [hmax] at hf; simp at hf
      | some mx =>
        rw [hmax] at hf
        simp only [Prod.mk.injEq] at hf
        rw [← hf.1]
        intro p hp
        rcases mem_dinsert _ _ _ p hp with rfl | hp2
        · exact dinsert_ne_nil _ _ _
        · exact h p hp2
  | none =>
    rw [hfind] at hf
    cases lk with
    | notFound => simp at hf
    | found uid isProt status =>
      cases isProt with
      | true => simp at hf
      | false =>
        cases status with
        | none => simp at hf
        | some sid =>
          simp only [Bool.false_eq_true, if_false, dinsert_dinsert, Prod.mk.injEq] at hf
          rw [← hf.1]
          intro p hp
          rcases mem_dinsert _ _ _ p hp with rfl | hp2
          · simp
          · exact h p hp2

end Scarecrow
